import Mathlib

/-!
# track-it-all: shallow embedding and verification

A shallow embedding of the core data pipeline of the `track-it-all`
repository (a market-analytics dashboard) together with proofs about it.

Embedded source functions, keeping their Python names:

* `fetch_data`, `fetch_unadjusted_data`       (src/modules/data_fetcher.py)
* `fetch_master_data`                          (src/market_dashboard.py)
* `run_technical_analysis`, `run_generic_analysis` (src/market_dashboard.py)
* `get_technical_analysis`, `get_generic_analysis` (src/modules/analysis.py)
* `resample_to_weekly`                         (src/tests/test_analysis.py)

Modelling conventions:

* Missing numeric cells (pandas `NaN` / Python `None`) are `Option ℚ`
  with `none` for the missing value; prices are exact rationals.
* Python comparisons against `NaN` are always `False`; `optGt`/`optLt`
  mirror that.
* numpy float division by zero yields `inf` (or `nan` for `0/0`) rather
  than raising; the inductive `PctVal` carries those outcomes.
* External fetches performed inside an analysis function are passed in as
  parameters holding the fetch result (the functions are deterministic in
  that result).
-/

namespace TrackItAll

/-- A percent-style field value as the dashboard renders it: the
not-available string, a finite number, `inf`, or `nan` (the latter two are
what numpy division by zero produces instead of raising). -/
inductive PctVal where
  | na
  | val (q : ℚ)
  | infty
  | nanv
deriving DecidableEq

/-- numpy-style division `num / den` for a percent field: division by zero
gives `inf` (or `nan` when the numerator is also zero) instead of raising. -/
def pctOf (num den : ℚ) : PctVal :=
  if den = 0 then (if num = 0 then .nanv else .infty) else .val (num / den)

/-- Python `a > b` on floats where either side may be `NaN` (`none`):
any comparison with `NaN` is `False`. -/
def optGt : Option ℚ → Option ℚ → Bool
  | some a, some b => a > b
  | _, _ => false

/-- Python `a < b` on floats where either side may be `NaN` (`none`). -/
def optLt : Option ℚ → Option ℚ → Bool
  | some a, some b => a < b
  | _, _ => false

/-- pandas `iloc[-k]`: the element `k` positions from the end (raises,
i.e. `none`, when fewer than `k` elements exist). -/
def negIdx (l : List α) (k : ℕ) : Option α :=
  if 1 ≤ k ∧ k ≤ l.length then l.get? (l.length - k) else none

/-- Maximum of a list of rationals (`none` on the empty list), as pandas
`max` over the present values of a column. -/
def qmax : List ℚ → Option ℚ
  | [] => none
  | x :: xs => some (xs.foldl max x)

/-- Minimum of a list of rationals (`none` on the empty list), as pandas
`min` over the present values of a column. -/
def qmin : List ℚ → Option ℚ
  | [] => none
  | x :: xs => some (xs.foldl min x)

/-- A row of the adjusted master-table slice handed to the dashboard
analysis entry points: any cell, including Close, may be missing. -/
structure RawBar where
  day : ℕ
  opn : Option ℚ
  high : Option ℚ
  low : Option ℚ
  close : Option ℚ
  volume : Option ℚ
deriving DecidableEq

/-- A bar after `dropna(subset=['Close'])`: Close is present, other
cells may still be missing. -/
structure CBar where
  day : ℕ
  opn : Option ℚ
  high : Option ℚ
  low : Option ℚ
  close : ℚ
  volume : Option ℚ
deriving DecidableEq

/-- `data.dropna(subset=['Close'])`: keep exactly the rows whose Close
cell is present. -/
def dropnaClose (l : List RawBar) : List CBar :=
  l.filterMap fun r => r.close.map fun c => ⟨r.day, r.opn, r.high, r.low, c, r.volume⟩

/-- A bar of the separately fetched unadjusted series: any cell,
including Close, may be missing (NaN). -/
structure UBar where
  day : ℕ
  high : Option ℚ
  low : Option ℚ
  close : Option ℚ
deriving DecidableEq

/-- `current_price_val = unadj_data['Close'].iloc[-1]`: the outer
`Option` is the Python variable — `none` when the unadjusted fetch
returned nothing and the variable stays `None` — while the inner one is
the cell itself, which may be NaN. -/
def curOf (u : Option (List UBar)) : Option (Option ℚ) :=
  u.bind fun d => (negIdx d 1).map (·.close)

/-- `unadj_data['Low'].min()`: `none` when the fetch returned nothing or
every Low cell is missing (pandas min of an all-NaN column is NaN). -/
def unadjLowOf (u : Option (List UBar)) : Option ℚ :=
  u.bind fun d => qmin (d.filterMap (·.low))

/-- `unadj_data['High'].max()` with the same missing-value behaviour. -/
def unadjHighOf (u : Option (List UBar)) : Option ℚ :=
  u.bind fun d => qmax (d.filterMap (·.high))

/-- `unadj_data['Low'].idxmin()`: day of the first occurrence of the
minimal present Low; `none` when that raises (all missing) — the caller
swallows the exception and keeps the date not-available. -/
def unadjLowDayOf (u : Option (List UBar)) : Option ℕ :=
  u.bind fun d =>
    ((d.filterMap fun b => b.low.map fun q => (b.day, q)).foldl
      (fun acc p =>
        match acc with
        | none => some p
        | some q => if p.2 < q.2 then some p else some q) none).map (·.1)

/-- first index (day) and value of the minimal present Low of a list of
adjusted bars, mirroring `Series.min()` together with `Series.idxmin()`;
`none` when no Low is present (`idxmin` raises there). -/
def swingArgmin (l : List CBar) : Option (ℕ × ℚ) :=
  (l.filterMap fun b => b.low.map fun q => (b.day, q)).foldl
    (fun acc p =>
      match acc with
      | none => some p
      | some q => if p.2 < q.2 then some p else some q) none

/-- Modelled from the spec: the latest value of an n-period midpoint line
of the external indicator library — the mean of the n-period rolling
maximum of High and rolling minimum of Low, missing (`NaN`) while fewer
than n bars have accumulated or when a cell in the window is missing. -/
def rollingMidLatest (n : ℕ) (data : List CBar) : Option ℚ :=
  let hs := (data.drop (data.length - n)).map (·.high)
  let ls := (data.drop (data.length - n)).map (·.low)
  if n ≤ data.length ∧ 0 < n ∧ hs.all Option.isSome ∧ ls.all Option.isSome then
    match qmax (hs.filterMap id), qmin (ls.filterMap id) with
    | some hh, some ll => some ((hh + ll) / 2)
    | _, _ => none
  else none

/-- Modelled from the spec: the 9-period conversion line (Tenkan) at the
latest bar. -/
def tenkanLatest (data : List CBar) : Option ℚ :=
  rollingMidLatest 9 data

/-- Modelled from the spec: the 26-period base line (Kijun) at the latest
bar. -/
def kijunLatest (data : List CBar) : Option ℚ :=
  rollingMidLatest 26 data

/-- Modelled from the spec: leading span A at the latest bar — the
midpoint of conversion and base line projected forward 26 periods, hence
the value those lines had 26 bars before the end. -/
def senkouALatest (data : List CBar) : Option ℚ :=
  match tenkanLatest (data.take (data.length - 26)),
      kijunLatest (data.take (data.length - 26)) with
  | some t, some k => some ((t + k) / 2)
  | _, _ => none

/-- Modelled from the spec: leading span B at the latest bar — the
52-period midpoint projected forward 26 periods. -/
def senkouBLatest (data : List CBar) : Option ℚ :=
  rollingMidLatest 52 (data.take (data.length - 26))

/-- successive differences `close.diff()` of a close series. -/
def diffs (cs : List ℚ) : List ℚ :=
  List.zipWith (fun a b => a - b) cs.tail cs

/-- Modelled from the spec: 14-period Wilder smoothing of a gain/loss
series — seeded with the mean of the first 14 values, then
`avg ← (13 * avg + x) / 14`; missing while fewer than 14 values exist. -/
def wilderAvg (xs : List ℚ) : Option ℚ :=
  if xs.length < 14 then none
  else some ((xs.drop 14).foldl (fun a g => (13 * a + g) / 14) ((xs.take 14).sum / 14))

/-- Modelled from the spec: the latest 14-period RSI of a close series
under standard Wilder smoothing, `100 * avgGain / (avgGain + avgLoss)`;
missing during warm-up and when both averages are zero (`0/0` is NaN). -/
def rsiLatest (cs : List ℚ) : Option ℚ :=
  let d := diffs cs
  match wilderAvg (d.map fun x => max x 0), wilderAvg (d.map fun x => max (-x) 0) with
  | some ag, some al => if ag + al = 0 then none else some (100 * ag / (ag + al))
  | _, _ => none

/-- RSI category as the classifiers label it. -/
inductive RSICat where
  | overbought
  | oversold
  | neutralR
deriving DecidableEq

/-- The RSI cell of an analysis record: the category, the numeric value
carried alongside it, and the number of decimal places of its format
string (`.1f` in market_dashboard.py, `.2f` in modules/analysis.py). -/
structure RSIInfo where
  cat : RSICat
  value : Option ℚ
  decimals : ℕ
deriving DecidableEq

/-- The RSI labelling shared by all classifier variants:
`Overbought` when RSI > 70, `Oversold` when RSI < 30, else `Neutral`
(comparisons against a missing RSI are `False`, so it falls to Neutral). -/
def rsiLabel (decimals : ℕ) (r : Option ℚ) : RSIInfo :=
  { cat :=
      if optGt r (some 70) then .overbought
      else if optLt r (some 30) then .oversold
      else .neutralR
    value := r
    decimals := decimals }

/-- Tenkan/Kijun cross label; `undef` is the explicit "nan" sentinel the
dashboard emits when either line is missing. -/
inductive TKLabel where
  | undef
  | bullishTK
  | bearishTK
deriving DecidableEq

/-- Cloud position label. -/
inductive CloudLabel where
  | bullishCl
  | bearishCl
  | neutralCl
deriving DecidableEq

/-- A plain bullish/bearish label (Chikou span, SMA trends). -/
inductive UpDown where
  | bullishU
  | bearishU
deriving DecidableEq

/-- Cloud position: bullish above both spans, bearish below both, else
inside the cloud (missing spans compare `False`, landing inside). -/
def cloudOf (close : ℚ) (sA sB : Option ℚ) : CloudLabel :=
  if optGt (some close) sA && optGt (some close) sB then .bullishCl
  else if optLt (some close) sA && optLt (some close) sB then .bearishCl
  else .neutralCl

/-- Chikou span label: latest close against the close 26 bars earlier
(`data['Close'].iloc[-27]`), bearish when not strictly above. -/
def chikouOf (closes : List ℚ) (latestClose : ℚ) : UpDown :=
  if optGt (some latestClose) (negIdx closes 27) then .bullishU else .bearishU

/-- The guarded percent-from-low computation of market_dashboard.py:
`isinstance(current_price_val, (int, float)) and not
pd.isna(unadj_low_val) and unadj_low_val != 0`, else the field is not
available.  The `isinstance` test only detects the `None` of a missing
fetch: a NaN latest Close is still a float, passes the guard, and the
division then yields NaN. -/
def pctFromLowOf (cur : Option (Option ℚ)) (low : Option ℚ) : PctVal :=
  match cur, low with
  | some c, some l =>
      if l = 0 then .na
      else
        match c with
        | some cv => .val ((cv - l) / l)
        | none => .nanv
  | _, _ => .na

/-- `index.max()` over the bar days. -/
def maxDay (data : List CBar) : ℕ :=
  (data.map (·.day)).foldl max 0

/-- The adjusted lookback low of `run_technical_analysis`: minimum Low
over the bars of the trailing `periodDays` calendar days; the explicit
NaN sentinel (`none`) when that window is empty or entirely missing. -/
def adjPeriodLow (data : List CBar) (periodDays : ℕ) : Option ℚ :=
  let e := maxDay data
  qmin (((data.filter fun b => e - periodDays ≤ b.day ∧ b.day ≤ e).filterMap (·.low)))

/-- The analysis record produced by `run_technical_analysis`
(market_dashboard.py). -/
structure TechRecord where
  nameField : String
  adjPrice : ℚ
  changePct : PctVal
  weeklyPct : PctVal
  cloud : CloudLabel
  tkCross : TKLabel
  chikouSpan : UpDown
  rsi : RSIInfo
  periodLowAdj : Option ℚ
  currentPrice : Option (Option ℚ)
  periodLowUnadj : Option ℚ
  periodLowDay : Option ℕ
  pctFromLow : PctVal
deriving DecidableEq

/-- Core of `run_technical_analysis` after the Close-dropna: gate at 30
bars, then build the record from the latest and previous bars.  The
`negIdx` matches mirror `iloc` accesses whose failure would be caught by
the surrounding `except` and turn the whole result into `None`. -/
def runTechCore (data : List CBar) (nm : String) (periodDays : ℕ)
    (unadj : Option (List UBar)) : Option TechRecord :=
  if data.length < 30 then none
  else
    match negIdx data 1, negIdx data 2 with
    | some latest, some prev =>
        let closes := data.map (·.close)
        some
          { nameField := nm
            adjPrice := latest.close
            changePct := pctOf (latest.close - prev.close) prev.close
            weeklyPct :=
              if 6 ≤ data.length then
                match negIdx data 6 with
                | some weekAgo => pctOf (latest.close - weekAgo.close) weekAgo.close
                | none => .na
              else .na
            cloud := cloudOf latest.close (senkouALatest data) (senkouBLatest data)
            tkCross :=
              match tenkanLatest data, kijunLatest data with
              | some t, some k => if t > k then .bullishTK else .bearishTK
              | _, _ => .undef
            chikouSpan := chikouOf closes latest.close
            rsi := rsiLabel 1 (rsiLatest closes)
            periodLowAdj := adjPeriodLow data periodDays
            currentPrice := curOf unadj
            periodLowUnadj := unadjLowOf unadj
            periodLowDay := unadjLowDayOf unadj
            pctFromLow := pctFromLowOf (curOf unadj) (unadjLowOf unadj) }
    | _, _ => none

/-- `run_technical_analysis(data, name, period_days, period_label,
ticker_symbol)` of market_dashboard.py on a master-table slice: drop
rows with a missing Close, then run the core.  The unadjusted series the
function fetches for `ticker_symbol` over the `period_label` window is
passed in as `unadj`. -/
def run_technical_analysis (data : List RawBar) (nm : String) (periodDays : ℕ)
    (unadj : Option (List UBar)) : Option TechRecord :=
  runTechCore (dropnaClose data) nm periodDays unadj

/-- The analysis record produced by `run_generic_analysis`
(market_dashboard.py). -/
structure GenDashRecord where
  assetName : String
  changePct : PctVal
  weeklyPct : PctVal
  cloud : CloudLabel
  rsi : RSIInfo
  price : Option (Option ℚ)
  high52 : Option ℚ
  low52 : Option ℚ
  pctFrom52Low : PctVal
  pctFrom52High : PctVal
deriving DecidableEq

/-- Core of `run_generic_analysis` after the Close-dropna: the gate is 30
bars (not 200 — this path computes Ichimoku/RSI, no moving averages). -/
def runGenCore (data : List CBar) (nm : String)
    (unadj : Option (List UBar)) : Option GenDashRecord :=
  if data.length < 30 then none
  else
    match negIdx data 1, negIdx data 2, negIdx data 6 with
    | some latest, some prev, some weekAgo =>
        let closes := data.map (·.close)
        some
          { assetName := nm
            changePct := pctOf (latest.close - prev.close) prev.close
            weeklyPct := pctOf (latest.close - weekAgo.close) weekAgo.close
            cloud := cloudOf latest.close (senkouALatest data) (senkouBLatest data)
            rsi := rsiLabel 1 (rsiLatest closes)
            price := curOf unadj
            high52 := unadjHighOf unadj
            low52 := unadjLowOf unadj
            pctFrom52Low := pctFromLowOf (curOf unadj) (unadjLowOf unadj)
            pctFrom52High := pctFromLowOf (curOf unadj) (unadjHighOf unadj) }
    | _, _, _ => none

/-- `run_generic_analysis(data, name, ticker_symbol)` of
market_dashboard.py: drop rows with a missing Close, then run the core;
`unadj` holds the result of the 1-year unadjusted fetch. -/
def run_generic_analysis (data : List RawBar) (nm : String)
    (unadj : Option (List UBar)) : Option GenDashRecord :=
  runGenCore (dropnaClose data) nm unadj

/-- The analysis record produced by `get_technical_analysis`
(modules/analysis.py). -/
structure ARecord where
  nameField : String
  adjPrice : ℚ
  currentPrice : Option (Option ℚ)
  changePct : PctVal
  weeklyPct : PctVal
  tkCross : TKLabel
  chikouSpan : UpDown
  cloud : CloudLabel
  rsi : RSIInfo
  swingLowAdj : ℚ
  swingLowDay : ℕ
  swingLowUnadj : Option ℚ
  pctFromLow : PctVal
deriving DecidableEq

/-- `get_technical_analysis(ticker_symbol, stock_name, swing_days,
period_label)` of modules/analysis.py.  `dataOpt` is the result of its
internal `fetch_data` call (`None` propagates), `unadj` the result of its
`fetch_unadjusted_data` call.  This variant has no dropna and no
missing-value check on the Tenkan/Kijun cross; its swing low and
percent-from-low come from the adjusted series (`data.tail(swing_days)`),
and an all-missing Low window makes `idxmin` raise, which the `except`
turns into `None`. -/
def get_technical_analysis (dataOpt : Option (List CBar)) (nm : String)
    (swingDays : ℕ) (unadj : Option (List UBar)) : Option ARecord :=
  match dataOpt with
  | none => none
  | some data =>
    if data.length < 30 then none
    else
      match negIdx data 1, negIdx data 2, negIdx data 6 with
      | some latest, some prev, some prevWeek =>
          match swingArgmin (data.drop (data.length - swingDays)) with
          | none => none
          | some lowInfo =>
              let closes := data.map (·.close)
              some
                { nameField := nm
                  adjPrice := latest.close
                  currentPrice := curOf unadj
                  -- (latest/prev - 1) * 100, written over the common denominator
                  changePct := pctOf ((latest.close - prev.close) * 100) prev.close
                  weeklyPct := pctOf ((latest.close - prevWeek.close) * 100) prevWeek.close
                  tkCross :=
                    if optGt (tenkanLatest data) (kijunLatest data) then .bullishTK
                    else .bearishTK
                  chikouSpan := chikouOf closes latest.close
                  cloud := cloudOf latest.close (senkouALatest data) (senkouBLatest data)
                  rsi := rsiLabel 2 (rsiLatest closes)
                  swingLowAdj := lowInfo.2
                  swingLowDay := lowInfo.1
                  swingLowUnadj := unadjLowOf unadj
                  pctFromLow := pctOf ((latest.close - lowInfo.2) * 100) lowInfo.2 }
      | _, _, _ => none

/-- Modelled from the spec: the latest n-period simple moving average of
the closes computed by the external indicator library, missing during
warm-up. -/
def smaLatest (n : ℕ) (cs : List ℚ) : Option ℚ :=
  if n ≤ cs.length ∧ 0 < n then some ((cs.drop (cs.length - n)).sum / n) else none

/-- The analysis record produced by `get_generic_analysis`
(modules/analysis.py). -/
structure GenModRecord where
  assetName : String
  adjPrice : ℚ
  currentPrice : Option (Option ℚ)
  lowUnadj : Option ℚ
  lowDay : Option ℕ
  changePct : PctVal
  weeklyPct : PctVal
  rsi : RSIInfo
  trendShort : UpDown
  trendMedium : UpDown
  trendLong : UpDown
deriving DecidableEq

/-- `get_generic_analysis(ticker_symbol, asset_name)` of
modules/analysis.py: gate at 200 bars, 20/50/200-SMA trends, and — as in
the source — a weekly change whose divisor is the previous bar's close
(`/ prev['Close']`), not the close six bars back. -/
def get_generic_analysis (dataOpt : Option (List CBar)) (nm : String)
    (unadj : Option (List UBar)) : Option GenModRecord :=
  match dataOpt with
  | none => none
  | some data =>
    if data.length < 200 then none
    else
      match negIdx data 1, negIdx data 2, negIdx data 6 with
      | some latest, some prev, some prevWeek =>
          let closes := data.map (·.close)
          some
            { assetName := nm
              adjPrice := latest.close
              currentPrice := curOf unadj
              lowUnadj := unadjLowOf unadj
              lowDay := unadjLowDayOf unadj
              changePct := pctOf ((latest.close - prev.close) * 100) prev.close
              weeklyPct := pctOf ((latest.close - prevWeek.close) * 100) prev.close
              rsi := rsiLabel 2 (rsiLatest closes)
              trendShort :=
                if optGt (some latest.close) (smaLatest 20 closes) then .bullishU
                else .bearishU
              trendMedium :=
                if optGt (some latest.close) (smaLatest 50 closes) then .bullishU
                else .bearishU
              trendLong :=
                if optGt (some latest.close) (smaLatest 200 closes) then .bullishU
                else .bearishU }
      | _, _, _ => none

/-- A provider-response column before flattening: a two-level
(field, symbol-or-alias) header and the cell values. -/
structure PCol where
  lvl0 : String
  lvl1 : String
  vals : List (Option ℚ)
deriving DecidableEq

/-- A flat column after `columns.get_level_values(0)`. -/
structure FCol where
  fieldName : String
  vals : List (Option ℚ)
deriving DecidableEq

/-- Keep-first column deduplication, as
`df.loc[:, ~df.columns.duplicated()]`: a column whose key was already
seen is dropped. -/
def dedupByFrom (key : α → κ) [DecidableEq κ] (seen : List κ) : List α → List α
  | [] => []
  | c :: cs =>
      if key c ∈ seen then dedupByFrom key seen cs
      else c :: dedupByFrom key (key c :: seen) cs

/-- `fetch_data(ticker_symbol)` of modules/data_fetcher.py, as a function
of the provider's behaviour for that symbol: an exception or an empty
response becomes `none` (never a raised exception); otherwise the
column axis is flattened to its first level and deduplicated keeping the
first occurrence of each field. -/
def fetch_data (resp : Except Unit (List PCol)) : Option (List FCol) :=
  match resp with
  | .error _ => none
  | .ok df =>
      if df.isEmpty then none
      else some (dedupByFrom FCol.fieldName [] (df.map fun c => ⟨c.lvl0, c.vals⟩))

/-- `fetch_unadjusted_data(ticker_symbol, period)` of
modules/data_fetcher.py: identical flattening, deduplication and
exception-to-`None` behaviour on the unadjusted download. -/
def fetch_unadjusted_data (resp : Except Unit (List PCol)) : Option (List FCol) :=
  match resp with
  | .error _ => none
  | .ok df =>
      if df.isEmpty then none
      else some (dedupByFrom FCol.fieldName [] (df.map fun c => ⟨c.lvl0, c.vals⟩))

/-- the flat field names of an optional frame. -/
def fieldNamesOf (o : Option (List FCol)) : List String :=
  (o.getD []).map (·.fieldName)

/-- A master-table column, keyed by the (field, symbol) pair. -/
structure MCol where
  key : String × String
  vals : List (Option ℚ)
deriving DecidableEq

/-- The observable actions of one universe fetch: a provider request for
a batch of symbols, or an unconditional sleep of a fixed number of
seconds. -/
inductive FetchEvent where
  | request (batch : List String)
  | sleepSeconds (secs : ℚ)
deriving DecidableEq

/-- fuel-driven worker for `chunks10` (the fuel bounds the input length,
keeping the recursion structural). -/
def chunks10Aux : ℕ → List α → List (List α)
  | 0, _ => []
  | _, [] => []
  | fuel + 1, x :: xs => (x :: xs).take 10 :: chunks10Aux fuel (xs.drop 9)

/-- `range(0, len(tickers), 10)` slicing: partition a list into
consecutive batches of ten. -/
def chunks10 (l : List α) : List (List α) :=
  chunks10Aux l.length l

/-- The batch loop of `fetch_master_data`: each batch is requested in
order; an exception skips the batch via `continue` (also skipping that
iteration's sleep), an empty response is dropped but still sleeps, and a
non-empty response is collected.  Returns the collected frames and the
chronological event trace. -/
def runBatches (fetchB : List String → Except Unit (List MCol)) :
    List (List String) → List (List MCol) × List FetchEvent
  | [] => ([], [])
  | b :: bs =>
      match fetchB b with
      | .error _ =>
          let r := runBatches fetchB bs
          (r.1, .request b :: r.2)
      | .ok df =>
          let r := runBatches fetchB bs
          ((if df.isEmpty then r.1 else df :: r.1),
            .request b :: .sleepSeconds 2 :: r.2)

/-- `fetch_master_data(tickers_list)` of market_dashboard.py, as a
function of the per-batch provider behaviour: deduplicate the universe,
request it in serial batches of ten with a fixed 2-second sleep, skip
failed and empty batches, and merge the survivors column-wise with
keep-first (field, symbol) deduplication; `None` exactly when nothing
survived.  Also returns the event trace of the run. -/
def fetch_master_data (fetchB : List String → Except Unit (List MCol))
    (tickers : List String) : Option (List MCol) × List FetchEvent :=
  if tickers.isEmpty then (none, [])
  else
    let r := runBatches fetchB (chunks10 tickers.dedup)
    ((if r.1.isEmpty then none else some (dedupByFrom MCol.key [] r.1.flatten)), r.2)

/-- the outcome of one batch request: `none` for an exception or an
empty response, the frame otherwise. -/
def batchResult (fetchB : List String → Except Unit (List MCol))
    (b : List String) : Option (List MCol) :=
  match fetchB b with
  | .ok df => if df.isEmpty then none else some df
  | .error _ => none

/-- the batches of a universe fetch that return a non-empty frame. -/
def successBatches (fetchB : List String → Except Unit (List MCol))
    (tickers : List String) : List (List MCol) :=
  (chunks10 tickers.dedup).filterMap (batchResult fetchB)

/-- a batch result is non-empty, and carries a column for each of its
requested symbols. -/
def goodB (b : List String) : Except Unit (List MCol) → Bool
  | .ok df => !df.isEmpty && b.all fun s => df.any fun c => c.key.2 = s
  | .error _ => false

/-- A daily bar fed to the weekly resampler (plain values, as in the
resampler test). -/
structure DBar where
  day : ℕ
  opn : ℚ
  high : ℚ
  low : ℚ
  close : ℚ
  volume : ℚ
deriving DecidableEq

/-- A weekly bar: labelled by its bucket's Friday; empty gap-week buckets
have missing OHLC cells and a zero volume sum, exactly as the resampler
emits them. -/
structure WBar where
  day : ℕ
  opn : Option ℚ
  high : Option ℚ
  low : Option ℚ
  close : Option ℚ
  volume : ℚ
deriving DecidableEq

/-- The Friday ending the week of day `d`.  Days count from an epoch
Monday, so `d % 7 = 4` means Friday; weeks run Saturday through Friday. -/
def fridayOf (d : ℕ) : ℕ :=
  d + (11 - d % 7) % 7

/-- One `W-FRI` bucket of the resampler, aggregated per the rule
open = first, high = max, low = min, close = last, volume = sum over the
daily bars whose week ends on Friday `f`. -/
def weeklyBucketAgg (l : List DBar) (f : ℕ) : WBar :=
  let bucket := l.filter fun b => fridayOf b.day = f
  { day := f
    opn := bucket.head?.map (·.opn)
    high := qmax (bucket.map (·.high))
    low := qmin (bucket.map (·.low))
    close := bucket.getLast?.map (·.close)
    volume := (bucket.map (·.volume)).sum }

/-- `resample_to_weekly(daily_df)` of tests/test_analysis.py: `None` on a
missing or empty input, else one aggregated bar per Friday from the week
of the earliest bar through the week of the latest bar (the in-progress
final week is retained). -/
def resample_to_weekly (l : List DBar) : Option (List WBar) :=
  match l with
  | [] => none
  | x :: xs =>
      some ((List.range
          ((fridayOf ((xs.map (·.day)).foldl max x.day) -
              fridayOf ((xs.map (·.day)).foldl min x.day)) / 7 + 1)).map
        fun i => weeklyBucketAgg (x :: xs)
          (fridayOf ((xs.map (·.day)).foldl min x.day) + 7 * i))

/-- a bare close-only adjusted bar. -/
def cBarOf (i : ℕ) (c : ℚ) : CBar :=
  ⟨i, none, none, none, c, none⟩

/-- 30 bars of constant close 100 whose final bar has a missing High, so
the latest 9-period Tenkan is undefined. -/
def s30nan : List CBar :=
  (List.range 30).map fun i =>
    ⟨i, none, (if i = 29 then none else some 100), some 100, 100, none⟩

/-- the same series as a raw master-table slice (all Closes present). -/
def r30nan : List RawBar :=
  (List.range 30).map fun i =>
    ⟨i, none, (if i = 29 then none else some 100), some 100, some 100, none⟩

/-- 30 bars of constant close 100 with an adjusted Low of exactly 0 on
day 20 (inside every trailing swing window of at least 10 bars). -/
def s30z : List CBar :=
  (List.range 30).map fun i =>
    ⟨i, none, some 100, some (if i = 20 then 0 else 100), 100, none⟩

/-- 30 fully populated constant bars. -/
def s30c : List CBar :=
  (List.range 30).map fun i => ⟨i, none, some 100, some 100, 100, none⟩

/-- a 200-bar adjusted series: 194 closes of 100, then
50, 100, 100, 100, 100, 110 — so the latest close is 110, the previous
close is 100, and the close six bars back is 50. -/
def s200 : List CBar :=
  (List.replicate 194 (100 : ℚ) ++ [50, 100, 100, 100, 100, 110]).zipWith
    (fun c i => cBarOf i c) (List.range 200)

/-- a 40-row master-table slice with every Close present. -/
def raw40 : List RawBar :=
  (List.range 40).map fun i => ⟨i, none, none, none, some 100, none⟩

/-- a 30-row master-table slice whose first row has a missing Close. -/
def raw30bad : List RawBar :=
  (List.range 30).map fun i =>
    ⟨i, none, none, none, (if i = 0 then none else some 100), none⟩

/-- the 29 populated rows of `raw30bad` on their own. -/
def raw29 : List RawBar :=
  (List.range 29).map fun i => ⟨i + 1, none, none, none, some 100, none⟩

/-- a twelve-symbol deduplicated universe. -/
def ts12 : List String :=
  ["a", "b", "c", "d", "e", "f", "g", "h", "i", "j", "k", "l"]

/-- a provider that answers every batch with one Close column per
requested symbol. -/
def fB12 (b : List String) : Except Unit (List MCol) :=
  .ok (b.map fun s => ⟨("Close", s), []⟩)

/-- a two-symbol universe. -/
def ts2 : List String := ["a", "b"]

/-- the merged frame `fB12` yields for the batch `["a", "b"]`. -/
def df2 : List MCol := [⟨("Close", "a"), []⟩, ⟨("Close", "b"), []⟩]

/-- a one-bar daily series: a Monday bar with high 2 and low 1. -/
def l1bar : List DBar := [⟨0, 1, 2, 1, 2, 3⟩]

/-- a one-bar unadjusted frame whose latest Close cell is missing (NaN)
while its Low is present and nonzero. -/
def uNaN : List UBar := [⟨0, none, some 100, none⟩]

end TrackItAll

namespace TrackItAll

/-! ## Helper lemmas -/

theorem negIdx_isSome {l : List α} {k : ℕ} (h1 : 1 ≤ k) (h2 : k ≤ l.length) :
    ∃ x, negIdx l k = some x := by
  unfold negIdx
  rw [if_pos ⟨h1, h2⟩]
  rcases hg : l.get? (l.length - k) with _ | x
  · rw [List.get?_eq_none] at hg
    omega
  · exact ⟨x, rfl⟩

theorem runTechCore_eq (data : List CBar) (nm : String) (periodDays : ℕ)
    (unadj : Option (List UBar)) (latest prev : CBar)
    (h : ¬ data.length < 30)
    (h1 : negIdx data 1 = some latest) (h2 : negIdx data 2 = some prev) :
    runTechCore data nm periodDays unadj =
      some
        { nameField := nm
          adjPrice := latest.close
          changePct := pctOf (latest.close - prev.close) prev.close
          weeklyPct :=
            if 6 ≤ data.length then
              match negIdx data 6 with
              | some weekAgo => pctOf (latest.close - weekAgo.close) weekAgo.close
              | none => .na
            else .na
          cloud := cloudOf latest.close (senkouALatest data) (senkouBLatest data)
          tkCross :=
            match tenkanLatest data, kijunLatest data with
            | some t, some k => if t > k then .bullishTK else .bearishTK
            | _, _ => .undef
          chikouSpan := chikouOf (data.map (·.close)) latest.close
          rsi := rsiLabel 1 (rsiLatest (data.map (·.close)))
          periodLowAdj := adjPeriodLow data periodDays
          currentPrice := curOf unadj
          periodLowUnadj := unadjLowOf unadj
          periodLowDay := unadjLowDayOf unadj
          pctFromLow := pctFromLowOf (curOf unadj) (unadjLowOf unadj) } := by
  unfold runTechCore
  rw [if_neg h, h1, h2]

theorem runGenCore_eq (data : List CBar) (nm : String)
    (unadj : Option (List UBar)) (latest prev weekAgo : CBar)
    (h : ¬ data.length < 30)
    (h1 : negIdx data 1 = some latest) (h2 : negIdx data 2 = some prev)
    (h6 : negIdx data 6 = some weekAgo) :
    runGenCore data nm unadj =
      some
        { assetName := nm
          changePct := pctOf (latest.close - prev.close) prev.close
          weeklyPct := pctOf (latest.close - weekAgo.close) weekAgo.close
          cloud := cloudOf latest.close (senkouALatest data) (senkouBLatest data)
          rsi := rsiLabel 1 (rsiLatest (data.map (·.close)))
          price := curOf unadj
          high52 := unadjHighOf unadj
          low52 := unadjLowOf unadj
          pctFrom52Low := pctFromLowOf (curOf unadj) (unadjLowOf unadj)
          pctFrom52High := pctFromLowOf (curOf unadj) (unadjHighOf unadj) } := by
  unfold runGenCore
  rw [if_neg h, h1, h2, h6]

theorem get_technical_eq (data : List CBar) (nm : String) (swingDays : ℕ)
    (unadj : Option (List UBar)) (latest prev prevWeek : CBar) (lowInfo : ℕ × ℚ)
    (h : ¬ data.length < 30)
    (h1 : negIdx data 1 = some latest) (h2 : negIdx data 2 = some prev)
    (h6 : negIdx data 6 = some prevWeek)
    (hsw : swingArgmin (data.drop (data.length - swingDays)) = some lowInfo) :
    get_technical_analysis (some data) nm swingDays unadj =
      some
        { nameField := nm
          adjPrice := latest.close
          currentPrice := curOf unadj
          changePct := pctOf ((latest.close - prev.close) * 100) prev.close
          weeklyPct := pctOf ((latest.close - prevWeek.close) * 100) prevWeek.close
          tkCross :=
            if optGt (tenkanLatest data) (kijunLatest data) then .bullishTK
            else .bearishTK
          chikouSpan := chikouOf (data.map (·.close)) latest.close
          cloud := cloudOf latest.close (senkouALatest data) (senkouBLatest data)
          rsi := rsiLabel 2 (rsiLatest (data.map (·.close)))
          swingLowAdj := lowInfo.2
          swingLowDay := lowInfo.1
          swingLowUnadj := unadjLowOf unadj
          pctFromLow := pctOf ((latest.close - lowInfo.2) * 100) lowInfo.2 } := by
  unfold get_technical_analysis
  dsimp only
  rw [if_neg h, h1, h2, h6, hsw]

theorem get_generic_eq (data : List CBar) (nm : String)
    (unadj : Option (List UBar)) (latest prev prevWeek : CBar)
    (h : ¬ data.length < 200)
    (h1 : negIdx data 1 = some latest) (h2 : negIdx data 2 = some prev)
    (h6 : negIdx data 6 = some prevWeek) :
    get_generic_analysis (some data) nm unadj =
      some
        { assetName := nm
          adjPrice := latest.close
          currentPrice := curOf unadj
          lowUnadj := unadjLowOf unadj
          lowDay := unadjLowDayOf unadj
          changePct := pctOf ((latest.close - prev.close) * 100) prev.close
          weeklyPct := pctOf ((latest.close - prevWeek.close) * 100) prev.close
          rsi := rsiLabel 2 (rsiLatest (data.map (·.close)))
          trendShort :=
            if optGt (some latest.close) (smaLatest 20 (data.map (·.close))) then .bullishU
            else .bearishU
          trendMedium :=
            if optGt (some latest.close) (smaLatest 50 (data.map (·.close))) then .bullishU
            else .bearishU
          trendLong :=
            if optGt (some latest.close) (smaLatest 200 (data.map (·.close))) then .bullishU
            else .bearishU } := by
  unfold get_generic_analysis
  dsimp only
  rw [if_neg h, h1, h2, h6]

theorem dedupByFrom_key_nodup (key : α → κ) [DecidableEq κ] :
    ∀ (l : List α) (seen : List κ),
      ((dedupByFrom key seen l).map key).Nodup ∧
        ∀ k ∈ (dedupByFrom key seen l).map key, k ∉ seen := by
  intro l
  induction l with
  | nil => intro seen; simp [dedupByFrom]
  | cons c cs ih =>
      intro seen
      by_cases hc : key c ∈ seen
      · simpa [dedupByFrom, hc] using ih seen
      · have h2 := ih (key c :: seen)
        refine ⟨?_, ?_⟩
        · simp only [dedupByFrom, if_neg hc, List.map_cons, List.nodup_cons]
          exact ⟨fun hmem => (h2.2 _ hmem) (List.mem_cons_self _ _), h2.1⟩
        · intro k hk
          simp only [dedupByFrom, if_neg hc, List.map_cons, List.mem_cons] at hk
          rcases hk with rfl | hk
          · exact hc
          · intro hks
            exact (h2.2 _ hk) (List.mem_cons_of_mem _ hks)

theorem dedupByFrom_covers (key : α → κ) [DecidableEq κ] :
    ∀ (l : List α) (seen : List κ) (c : α), c ∈ l →
      key c ∈ seen ∨ ∃ c2 ∈ dedupByFrom key seen l, key c2 = key c := by
  intro l
  induction l with
  | nil => intro seen c hc; cases hc
  | cons d ds ih =>
      intro seen c hc
      by_cases hd : key d ∈ seen
      · rcases List.mem_cons.1 hc with rfl | hc2
        · exact Or.inl hd
        · rcases ih seen c hc2 with h | ⟨c2, hm, hk⟩
          · exact Or.inl h
          · exact Or.inr ⟨c2, by simpa [dedupByFrom, hd] using hm, hk⟩
      · rcases List.mem_cons.1 hc with rfl | hc2
        · exact Or.inr ⟨c, by simp [dedupByFrom, hd], rfl⟩
        · rcases ih (key d :: seen) c hc2 with h | ⟨c2, hm, hk⟩
          · rcases List.mem_cons.1 h with he | hs
            · exact Or.inr ⟨d, by simp [dedupByFrom, hd], he.symm⟩
            · exact Or.inl hs
          · exact Or.inr ⟨c2, by simp [dedupByFrom, hd, hm], hk⟩

theorem runBatches_fst (fetchB : List String → Except Unit (List MCol)) :
    ∀ bs : List (List String),
      (runBatches fetchB bs).1 = bs.filterMap (batchResult fetchB) := by
  intro bs
  induction bs with
  | nil => simp [runBatches]
  | cons b bs ih =>
      rcases hb : fetchB b with e | df
      · simp [runBatches, hb, List.filterMap_cons, batchResult, ih]
      · by_cases he : df.isEmpty
        · simp [runBatches, hb, he, List.filterMap_cons, batchResult, ih]
        · simp [runBatches, hb, he, List.filterMap_cons, batchResult, ih]

theorem fetch_master_data_fst (fetchB : List String → Except Unit (List MCol))
    (tickers : List String) :
    (fetch_master_data fetchB tickers).1 =
      if (successBatches fetchB tickers).isEmpty then none
      else some (dedupByFrom MCol.key [] (successBatches fetchB tickers).flatten) := by
  unfold fetch_master_data successBatches
  by_cases ht : tickers.isEmpty
  · have : tickers = [] := List.isEmpty_iff.1 ht
    subst this
    simp [chunks10, chunks10Aux]
  · simp only [if_neg ht, runBatches_fst]

theorem qmax_le {L : List ℚ} {x : ℚ} (h : qmax L = some x) :
    ∀ z ∈ L, z ≤ x := by
  match L with
  | [] => simp [qmax] at h
  | a :: as =>
      simp only [qmax, Option.some.injEq] at h
      subst h
      have key : ∀ (xs : List ℚ) (b : ℚ), b ≤ xs.foldl max b ∧
          ∀ z ∈ xs, z ≤ xs.foldl max b := by
        intro xs
        induction xs with
        | nil => simp
        | cons y ys ih =>
            intro b
            refine ⟨le_trans (le_max_left b y) (ih (max b y)).1, ?_⟩
            intro z hz
            rcases List.mem_cons.1 hz with rfl | hz2
            · exact le_trans (le_max_right b z) (ih (max b z)).1
            · exact (ih (max b y)).2 z hz2
      intro z hz
      rcases List.mem_cons.1 hz with rfl | hz2
      · exact (key as z).1
      · exact (key as a).2 z hz2

theorem qmin_le {L : List ℚ} {y : ℚ} (h : qmin L = some y) :
    ∀ z ∈ L, y ≤ z := by
  match L with
  | [] => simp [qmin] at h
  | a :: as =>
      simp only [qmin, Option.some.injEq] at h
      subst h
      have key : ∀ (xs : List ℚ) (b : ℚ), xs.foldl min b ≤ b ∧
          ∀ z ∈ xs, xs.foldl min b ≤ z := by
        intro xs
        induction xs with
        | nil => simp
        | cons w ws ih =>
            intro b
            refine ⟨le_trans (ih (min b w)).1 (min_le_left b w), ?_⟩
            intro z hz
            rcases List.mem_cons.1 hz with rfl | hz2
            · exact le_trans (ih (min b z)).1 (min_le_right b z)
            · exact (ih (min b w)).2 z hz2
      intro z hz
      rcases List.mem_cons.1 hz with rfl | hz2
      · exact (key as z).1
      · exact (key as a).2 z hz2

theorem qmax_ne_nil {L : List ℚ} {x : ℚ} (h : qmax L = some x) : L ≠ [] := by
  intro he
  subst he
  simp [qmax] at h

theorem fridayOf_mod (d : ℕ) : fridayOf d % 7 = 4 := by
  unfold fridayOf
  omega

theorem chunks10_len12 (l : List α) (h : l.length = 12) :
    chunks10 l = [l.take 10, l.drop 10] := by
  match l with
  | [] => simp at h
  | x :: xs =>
      have hxs : xs.length = 11 := by simpa using h
      have hd : (xs.drop 9).length = 2 := by simp [hxs]
      rcases hdrop : xs.drop 9 with _ | ⟨y, ys⟩
      · rw [hdrop] at hd; simp at hd
      · rcases ys with _ | ⟨z, zs⟩
        · rw [hdrop] at hd; simp at hd
        · have hzs : zs = [] := by
            rw [hdrop] at hd
            simpa using List.length_eq_zero.1 (by simpa using hd)
          subst hzs
          show chunks10Aux (x :: xs).length (x :: xs) = _
          rw [h]
          show (x :: xs).take 10 :: chunks10Aux 11 (xs.drop 9) = _
          rw [hdrop]
          show (x :: xs).take 10 :: [y, z].take 10 :: chunks10Aux 10 ([z].drop 9) = _
          have hdrop10 : (x :: xs).drop 10 = [y, z] := by
            simpa [List.drop_succ_cons] using hdrop
          simp [chunks10Aux, hdrop10]

/-! ## Claim theorems -/

/-- C2: the claim that every classifier variant emits an explicit
"undefined" sentinel when the latest Tenkan or Kijun is missing is right
about the dashboard and is the documented intent ("Handles nan values"),
but `get_technical_analysis` in modules/analysis.py compares the raw
values, so a missing Tenkan is coerced to the Bearish label: on a 30-bar
series whose last bar lacks a High (latest Tenkan undefined), the module
labels Bearish while the dashboard emits the sentinel. -/
theorem tk_cross_missing_coerced_to_bearish :
    tenkanLatest s30nan = none ∧
      (get_technical_analysis (some s30nan) "x" 21 none).map (·.tkCross) =
          some .bearishTK ∧
      (run_technical_analysis r30nan "x" 21 none).map (·.tkCross) = some .undef :=
  ⟨by decide, by decide, by decide⟩

/-- C3 counterexample: `run_generic_analysis` (market_dashboard.py)
accepts a 40-bar series — its gate is 30 bars, not the claimed 200 —
so a sub-200-bar input does not produce the skip outcome on this
generic-path implementation. -/
theorem run_generic_accepts_forty_bars :
    (run_generic_analysis raw40 "x" none).isSome = true ∧
      (dropnaClose raw40).length = 40 ∧ 40 < 200 :=
  ⟨by decide, by decide, by decide⟩

/-- C8 counterexample: the RSI value carried by the
`get_technical_analysis` record is formatted with two decimal places
(`.2f`), not one, so the claim that every accepted series carries the
value to one decimal place fails on the modules/analysis classifier. -/
theorem rsi_two_decimals_in_module :
    (get_technical_analysis (some s30c) "x" 21 none).map (·.rsi.decimals) =
        some 2 ∧ (2 : ℕ) ≠ 1 :=
  ⟨by decide, by decide⟩

/-- C6: the Series Fetcher never propagates a provider exception: both
`fetch_data` and `fetch_unadjusted_data` map a provider exception to the
NotFound value (`none`), map an empty provider response to `none`, and on
success return a frame whose flattened field names are duplicate-free. -/
theorem series_fetcher_no_exception :
    (∀ e, fetch_data (.error e) = none) ∧
      (∀ df, (fetch_data (.ok df) = none ↔ df.isEmpty = true)) ∧
      (∀ r, (fieldNamesOf (fetch_data r)).Nodup) ∧
      (∀ e, fetch_unadjusted_data (.error e) = none) ∧
      (∀ df, (fetch_unadjusted_data (.ok df) = none ↔ df.isEmpty = true)) ∧
      (∀ r, (fieldNamesOf (fetch_unadjusted_data r)).Nodup) := by
  refine ⟨fun e => rfl, fun df => ?_, fun r => ?_, fun e => rfl, fun df => ?_, fun r => ?_⟩
  · unfold fetch_data
    by_cases he : df.isEmpty <;> simp [he]
  · rcases r with e | df
    · simp [fetch_data, fieldNamesOf]
    · by_cases he : df.isEmpty
      · simp [fetch_data, he, fieldNamesOf]
      · simpa [fetch_data, he, fieldNamesOf] using
          (dedupByFrom_key_nodup FCol.fieldName (df.map fun c => ⟨c.lvl0, c.vals⟩) []).1
  · unfold fetch_unadjusted_data
    by_cases he : df.isEmpty <;> simp [he]
  · rcases r with e | df
    · simp [fetch_unadjusted_data, fieldNamesOf]
    · by_cases he : df.isEmpty
      · simp [fetch_unadjusted_data, he, fieldNamesOf]
      · simpa [fetch_unadjusted_data, he, fieldNamesOf] using
          (dedupByFrom_key_nodup FCol.fieldName (df.map fun c => ⟨c.lvl0, c.vals⟩) []).1

/-- C7 counterexample: in `get_technical_analysis` (modules/analysis.py)
the percent-from-low field is computed from the adjusted series with no
zero guard: on a 30-bar series whose adjusted swing low is exactly 0 the
field is an infinite value, not "not available" — and no unadjusted data
was even supplied.  And in the dashboard path, a NaN latest unadjusted
Close passes the `isinstance` guard and makes the field NaN-valued
rather than "not available". -/
theorem pct_from_low_infinite_on_zero_adjusted_low :
    (get_technical_analysis (some s30z) "x" 21 none).map (·.pctFromLow) =
        some .infty ∧
      unadjLowOf none = none ∧
      curOf (some uNaN) = some none ∧
      (run_technical_analysis r30nan "x" 21 (some uNaN)).map (·.pctFromLow) =
          some .nanv := by
  refine ⟨?_, rfl, by decide, by decide⟩
  have h : negIdx s30z 1 = some ⟨29, none, some 100, some 100, 100, none⟩ := by decide
  have h2 : negIdx s30z 2 = some ⟨28, none, some 100, some 100, 100, none⟩ := by decide
  have h6 : negIdx s30z 6 = some ⟨24, none, some 100, some 100, 100, none⟩ := by decide
  have hsw : swingArgmin (s30z.drop (s30z.length - 21)) = some (20, 0) := by decide
  rw [get_technical_eq s30z "x" 21 none _ _ _ _ (by decide) h h2 h6 hsw]
  simp only [Option.map_some]
  show some (pctOf ((100 - (20, (0 : ℚ)).2) * 100) (20, (0 : ℚ)).2) = some PctVal.infty
  norm_num [pctOf]

/-- C7: percent-from-low in the market_dashboard classifier: the field
is never an infinite value and never a raised division; it resolves to
"not available" whenever the unadjusted fetch returned nothing, the
unadjusted low is missing, or the low is zero, and equals
(current − low) / low when everything is present.  The guard's
`isinstance` test does not detect a NaN latest unadjusted Close — a
float — which passes and makes the field NaN-valued rather than "not
available".  Both dashboard paths store exactly this helper's value
whenever they produce a record. -/
theorem pct_from_low_guarded_in_dashboard :
    (∀ (cur : Option (Option ℚ)) (low : Option ℚ),
        pctFromLowOf cur low ≠ .infty) ∧
      (∀ low, pctFromLowOf none low = .na) ∧
      (∀ cur, pctFromLowOf cur none = .na) ∧
      (∀ c l : ℚ, pctFromLowOf (some (some c)) (some l) =
          if l = 0 then .na else .val ((c - l) / l)) ∧
      (∀ l : ℚ, pctFromLowOf (some none) (some l) =
          if l = 0 then .na else .nanv) ∧
      (∀ raw nm p u, (run_technical_analysis raw nm p u).map (·.pctFromLow) =
          if (dropnaClose raw).length < 30 then none
          else some (pctFromLowOf (curOf u) (unadjLowOf u))) ∧
      (∀ raw nm u, (run_generic_analysis raw nm u).map (·.pctFrom52Low) =
          if (dropnaClose raw).length < 30 then none
          else some (pctFromLowOf (curOf u) (unadjLowOf u))) := by
  refine ⟨?_, ?_, ?_, fun c l => rfl, fun l => rfl, ?_, ?_⟩
  · intro cur low
    rcases cur with _ | c <;> rcases low with _ | l <;>
      simp only [pctFromLowOf] <;> try simp
    rcases c with _ | cv <;> by_cases hl : l = 0 <;> simp [hl]
  · intro low
    rcases low with _ | l <;> rfl
  · intro cur
    rcases cur with _ | c <;> rfl
  · intro raw nm p u
    by_cases hl : (dropnaClose raw).length < 30
    · simp [run_technical_analysis, runTechCore, hl]
    · obtain ⟨latest, h1⟩ :=
        @negIdx_isSome CBar (dropnaClose raw) 1 (by norm_num) (by omega)
      obtain ⟨prev, h2⟩ :=
        @negIdx_isSome CBar (dropnaClose raw) 2 (by norm_num) (by omega)
      rw [run_technical_analysis,
        runTechCore_eq (dropnaClose raw) nm p u latest prev hl h1 h2, if_neg hl]
      simp
  · intro raw nm u
    by_cases hl : (dropnaClose raw).length < 30
    · simp [run_generic_analysis, runGenCore, hl]
    · obtain ⟨latest, h1⟩ :=
        @negIdx_isSome CBar (dropnaClose raw) 1 (by norm_num) (by omega)
      obtain ⟨prev, h2⟩ :=
        @negIdx_isSome CBar (dropnaClose raw) 2 (by norm_num) (by omega)
      obtain ⟨weekAgo, h6⟩ :=
        @negIdx_isSome CBar (dropnaClose raw) 6 (by norm_num) (by omega)
      rw [run_generic_analysis,
        runGenCore_eq (dropnaClose raw) nm u latest prev weekAgo hl h1 h2 h6, if_neg hl]
      simp

/-- C10: both dashboard entry points drop rows with a missing Close
before checking the 30-bar minimum — a table with 30 or more rows but
fewer than 30 present Closes is skipped — and their results are a
function of the Close-filtered series alone. -/
theorem dropna_precedes_thirty_bar_gate :
    ∀ (raw raw2 : List RawBar) (nm : String) (p : ℕ) (u : Option (List UBar)),
      (30 ≤ raw.length → (dropnaClose raw).length < 30 →
          run_technical_analysis raw nm p u = none ∧
            run_generic_analysis raw nm u = none) ∧
        (dropnaClose raw = dropnaClose raw2 →
          run_technical_analysis raw nm p u = run_technical_analysis raw2 nm p u ∧
            run_generic_analysis raw nm u = run_generic_analysis raw2 nm u) := by
  intro raw raw2 nm p u
  constructor
  · intro _ hlt
    constructor
    · simp [run_technical_analysis, runTechCore, hlt]
    · simp [run_generic_analysis, runGenCore, hlt]
  · intro he
    constructor <;> simp [run_technical_analysis, run_generic_analysis, he]

/-- C10 witness: a 30-row slice whose first row lacks its Close is
skipped by both entry points, and analysing it is the same as analysing
its 29 populated rows directly. -/
theorem dropna_precedes_thirty_bar_gate_witness :
    (run_technical_analysis raw30bad "w" 21 none = none ∧
        run_generic_analysis raw30bad "w" none = none) ∧
      (run_technical_analysis raw30bad "w" 21 none =
          run_technical_analysis raw29 "w" 21 none ∧
        run_generic_analysis raw30bad "w" none =
          run_generic_analysis raw29 "w" none) :=
  ⟨(dropna_precedes_thirty_bar_gate raw30bad raw29 "w" 21 none).1 (by decide)
      (by decide),
    (dropna_precedes_thirty_bar_gate raw30bad raw29 "w" 21 none).2 (by decide)⟩

/-- C3 amended: the 200-bar minimum belongs to the modules/analysis
generic SMA path alone — `get_generic_analysis` skips exactly the series
shorter than 200 bars, while the market_dashboard generic path
`run_generic_analysis` skips exactly the inputs with fewer than 30
present-Close rows. -/
theorem generic_minimum_two_hundred_vs_thirty :
    (∀ (data : List CBar) (nm : String) (u : Option (List UBar)),
        get_generic_analysis (some data) nm u = none ↔ data.length < 200) ∧
      ∀ (raw : List RawBar) (nm : String) (u : Option (List UBar)),
        run_generic_analysis raw nm u = none ↔ (dropnaClose raw).length < 30 := by
  constructor
  · intro data nm u
    constructor
    · intro hn
      by_contra hlen
      obtain ⟨latest, h1⟩ := @negIdx_isSome CBar data 1 (by norm_num) (by omega)
      obtain ⟨prev, h2⟩ := @negIdx_isSome CBar data 2 (by norm_num) (by omega)
      obtain ⟨prevWeek, h6⟩ := @negIdx_isSome CBar data 6 (by norm_num) (by omega)
      rw [get_generic_eq data nm u latest prev prevWeek hlen h1 h2 h6] at hn
      exact Option.some_ne_none _ hn
    · intro hl
      unfold get_generic_analysis
      dsimp only
      rw [if_pos hl]
  · intro raw nm u
    constructor
    · intro hn
      by_contra hlen
      obtain ⟨latest, h1⟩ :=
        @negIdx_isSome CBar (dropnaClose raw) 1 (by norm_num) (by omega)
      obtain ⟨prev, h2⟩ :=
        @negIdx_isSome CBar (dropnaClose raw) 2 (by norm_num) (by omega)
      obtain ⟨weekAgo, h6⟩ :=
        @negIdx_isSome CBar (dropnaClose raw) 6 (by norm_num) (by omega)
      rw [run_generic_analysis,
        runGenCore_eq (dropnaClose raw) nm u latest prev weekAgo hlen h1 h2 h6] at hn
      exact Option.some_ne_none _ hn
    · intro hl
      simp [run_generic_analysis, runGenCore, hl]

/-- C8 amended: every classifier variant labels RSI in
{Overbought, Oversold, Neutral} with Overbought exactly when RSI > 70 and
Oversold exactly when RSI < 30 (boundary values land on Neutral, a
missing RSI compares false and lands on Neutral), carrying the numeric
value alongside — to one decimal place in the market_dashboard
classifiers and to two in the modules/analysis classifiers. -/
theorem rsi_labelling_thresholds :
    (∀ (d : ℕ) (r : Option ℚ),
        ((rsiLabel d r).cat = .overbought ∨ (rsiLabel d r).cat = .oversold ∨
            (rsiLabel d r).cat = .neutralR) ∧
          ((rsiLabel d r).cat = .overbought ↔ optGt r (some 70) = true) ∧
          ((rsiLabel d r).cat = .oversold ↔ optLt r (some 30) = true) ∧
          (rsiLabel d r).value = r ∧ (rsiLabel d r).decimals = d) ∧
      (∀ raw nm p u, (run_technical_analysis raw nm p u).map (·.rsi) =
          if (dropnaClose raw).length < 30 then none
          else some (rsiLabel 1 (rsiLatest ((dropnaClose raw).map (·.close))))) ∧
      (∀ raw nm u, (run_generic_analysis raw nm u).map (·.rsi) =
          if (dropnaClose raw).length < 30 then none
          else some (rsiLabel 1 (rsiLatest ((dropnaClose raw).map (·.close))))) ∧
      (∀ data nm sw u, (get_technical_analysis (some data) nm sw u).map (·.rsi) =
          if 30 ≤ data.length ∧ (swingArgmin (data.drop (data.length - sw))).isSome
          then some (rsiLabel 2 (rsiLatest (data.map (·.close))))
          else none) ∧
      (∀ data nm u, (get_generic_analysis (some data) nm u).map (·.rsi) =
          if 200 ≤ data.length then some (rsiLabel 2 (rsiLatest (data.map (·.close))))
          else none) := by
  have hlt_gt : ∀ r : Option ℚ, optLt r (some 30) = true → optGt r (some 70) = false := by
    intro r h
    rcases r with _ | v
    · rfl
    · simp only [optLt, decide_eq_true_eq] at h
      simp only [optGt, decide_eq_false_iff_not]
      intro hgt
      linarith
  refine ⟨?_, ?_, ?_, ?_, ?_⟩
  · intro d r
    by_cases hg : optGt r (some 70) = true
    · have hlf : optLt r (some 30) = false := by
        cases hl2 : optLt r (some 30)
        · rfl
        · rw [hlt_gt r hl2] at hg
          cases hg
      simp [rsiLabel, hg, hlf]
    · by_cases hl : optLt r (some 30) = true
      · simp [rsiLabel, hg, hl]
      · simp [rsiLabel, hg, hl]
  · intro raw nm p u
    by_cases hl : (dropnaClose raw).length < 30
    · simp [run_technical_analysis, runTechCore, hl]
    · obtain ⟨latest, h1⟩ :=
        @negIdx_isSome CBar (dropnaClose raw) 1 (by norm_num) (by omega)
      obtain ⟨prev, h2⟩ :=
        @negIdx_isSome CBar (dropnaClose raw) 2 (by norm_num) (by omega)
      rw [run_technical_analysis,
        runTechCore_eq (dropnaClose raw) nm p u latest prev hl h1 h2, if_neg hl]
      simp
  · intro raw nm u
    by_cases hl : (dropnaClose raw).length < 30
    · simp [run_generic_analysis, runGenCore, hl]
    · obtain ⟨latest, h1⟩ :=
        @negIdx_isSome CBar (dropnaClose raw) 1 (by norm_num) (by omega)
      obtain ⟨prev, h2⟩ :=
        @negIdx_isSome CBar (dropnaClose raw) 2 (by norm_num) (by omega)
      obtain ⟨weekAgo, h6⟩ :=
        @negIdx_isSome CBar (dropnaClose raw) 6 (by norm_num) (by omega)
      rw [run_generic_analysis,
        runGenCore_eq (dropnaClose raw) nm u latest prev weekAgo hl h1 h2 h6, if_neg hl]
      simp
  · intro data nm sw u
    by_cases hgate : 30 ≤ data.length ∧
        (swingArgmin (data.drop (data.length - sw))).isSome
    · obtain ⟨h30, hsome⟩ := hgate
      obtain ⟨latest, h1⟩ := @negIdx_isSome CBar data 1 (by norm_num) (by omega)
      obtain ⟨prev, h2⟩ := @negIdx_isSome CBar data 2 (by norm_num) (by omega)
      obtain ⟨prevWeek, h6⟩ := @negIdx_isSome CBar data 6 (by norm_num) (by omega)
      obtain ⟨li, hli⟩ := Option.isSome_iff_exists.1 hsome
      have hgy : 30 ≤ data.length ∧
          (swingArgmin (data.drop (data.length - sw))).isSome := ⟨h30, hsome⟩
      rw [get_technical_eq data nm sw u latest prev prevWeek li (by omega) h1 h2 h6 hli,
        if_pos hgy]
      simp
    · rw [if_neg hgate]
      by_cases h30 : 30 ≤ data.length
      · have hnone : swingArgmin (data.drop (data.length - sw)) = none := by
          rcases hsw : swingArgmin (data.drop (data.length - sw)) with _ | li
          · rfl
          · exact absurd ⟨h30, by simp [hsw]⟩ hgate
        obtain ⟨latest, h1⟩ := @negIdx_isSome CBar data 1 (by norm_num) (by omega)
        obtain ⟨prev, h2⟩ := @negIdx_isSome CBar data 2 (by norm_num) (by omega)
        obtain ⟨prevWeek, h6⟩ := @negIdx_isSome CBar data 6 (by norm_num) (by omega)
        unfold get_technical_analysis
        dsimp only
        rw [if_neg (by omega), h1, h2, h6, hnone]
        rfl
      · unfold get_technical_analysis
        dsimp only
        rw [if_pos (by omega)]
        rfl
  · intro data nm u
    by_cases hl : 200 ≤ data.length
    · obtain ⟨latest, h1⟩ := @negIdx_isSome CBar data 1 (by norm_num) (by omega)
      obtain ⟨prev, h2⟩ := @negIdx_isSome CBar data 2 (by norm_num) (by omega)
      obtain ⟨prevWeek, h6⟩ := @negIdx_isSome CBar data 6 (by norm_num) (by omega)
      rw [get_generic_eq data nm u latest prev prevWeek (by omega) h1 h2 h6, if_pos hl]
      simp
    · rw [if_neg hl]
      unfold get_generic_analysis
      dsimp only
      rw [if_pos (by omega)]
      rfl

set_option maxRecDepth 8000 in
/-- C1: the spec's Weekly % formula divides by the close six bars back;
`get_generic_analysis` (modules/analysis.py) divides by the previous
bar's close instead.  On a 200-bar series with latest close 110,
previous close 100 and 6-back close 50 the code yields 60 % where the
claimed formula yields 120 %. -/
theorem weekly_pct_generic_module_divides_by_prev_close :
    (get_generic_analysis (some s200) "x" none).map (·.weeklyPct) =
        some (.val 60) ∧
      ((110 - 50 : ℚ) / 50) * 100 = 120 ∧ (60 : ℚ) ≠ 120 := by
  refine ⟨?_, by norm_num, by norm_num⟩
  have h1 : negIdx s200 1 = some (cBarOf 199 110) := by decide
  have h2 : negIdx s200 2 = some (cBarOf 198 100) := by decide
  have h6 : negIdx s200 6 = some (cBarOf 194 50) := by decide
  rw [get_generic_eq s200 "x" none (cBarOf 199 110) (cBarOf 198 100) (cBarOf 194 50)
      (by decide) h1 h2 h6]
  show some (pctOf (((cBarOf 199 110).close - (cBarOf 194 50).close) * 100)
      (cBarOf 198 100).close) = some (PctVal.val 60)
  norm_num [pctOf, cBarOf]

/-- C4: the universe fetch reports the Failed outcome (`none`) exactly
when no batch returned a non-empty frame; whenever at least one batch
succeeds — the collected successes being a filter over every batch, so a
failing batch never stops the iteration — a merged table is returned and
it carries a column for every column of every successful batch. -/
theorem fetch_master_none_iff_all_batches_fail :
    ∀ (fetchB : List String → Except Unit (List MCol)) (tickers : List String),
      ((fetch_master_data fetchB tickers).1 = none ↔
          successBatches fetchB tickers = []) ∧
        ∀ df ∈ successBatches fetchB tickers,
          ∃ m, (fetch_master_data fetchB tickers).1 = some m ∧
            ∀ c ∈ df, ∃ c2 ∈ m, c2.key = c.key := by
  intro fetchB tickers
  have hfst := fetch_master_data_fst fetchB tickers
  constructor
  · rw [hfst]
    by_cases he : (successBatches fetchB tickers).isEmpty
    · simp [he, List.isEmpty_iff.1 he]
    · have hne : successBatches fetchB tickers ≠ [] := by
        simpa [List.isEmpty_iff] using he
      simp [he, hne]
  · intro df hdf
    have hne : successBatches fetchB tickers ≠ [] := by
      intro h0
      rw [h0] at hdf
      cases hdf
    have he : (successBatches fetchB tickers).isEmpty = false := by
      simpa [List.isEmpty_iff] using hne
    refine ⟨dedupByFrom MCol.key [] (successBatches fetchB tickers).flatten,
      by rw [hfst, he]; simp, ?_⟩
    intro c hc
    have hcf : c ∈ (successBatches fetchB tickers).flatten :=
      List.mem_flatten.2 ⟨df, hdf, hc⟩
    rcases dedupByFrom_covers MCol.key ((successBatches fetchB tickers).flatten) []
        c hcf with h | ⟨c2, hm, hk⟩
    · cases h
    · exact ⟨c2, hm, hk⟩

/-- C4 witness: on a two-symbol universe whose single batch succeeds, the
fetch is not Failed and the merged table covers the batch's columns. -/
theorem fetch_master_none_iff_all_batches_fail_witness :
    ((fetch_master_data fB12 ts2).1 = none ↔ successBatches fB12 ts2 = []) ∧
      ∃ m, (fetch_master_data fB12 ts2).1 = some m ∧
        ∀ c ∈ df2, ∃ c2 ∈ m, c2.key = c.key :=
  ⟨(fetch_master_none_iff_all_batches_fail fB12 ts2).1,
    (fetch_master_none_iff_all_batches_fail fB12 ts2).2 df2 (by decide)⟩

/-- C5: on a deduplicated 12-symbol universe whose batches all return a
frame covering their symbols, the orchestrator issues exactly two serial
requests — of 10 and 2 symbols — sleeps exactly twice for 2 seconds
each (once after every request), and merges into a table holding a
column for every symbol with no duplicate (field, symbol) keys. -/
theorem twelve_symbols_two_batches_two_sleeps
    (fetchB : List String → Except Unit (List MCol)) (tickers : List String)
    (hnd : tickers.Nodup) (hlen : tickers.length = 12)
    (hgood : ∀ b ∈ chunks10 tickers, goodB b (fetchB b) = true) :
    (fetch_master_data fetchB tickers).2 =
        [.request (tickers.take 10), .sleepSeconds 2,
          .request (tickers.drop 10), .sleepSeconds 2] ∧
      (tickers.take 10).length = 10 ∧ (tickers.drop 10).length = 2 ∧
      ∃ m, (fetch_master_data fetchB tickers).1 = some m ∧
        (m.map (·.key)).Nodup ∧ ∀ s ∈ tickers, ∃ c ∈ m, c.key.2 = s := by
  have hded : tickers.dedup = tickers := hnd.dedup
  have hch : chunks10 tickers = [tickers.take 10, tickers.drop 10] :=
    chunks10_len12 tickers hlen
  have hg1 : goodB (tickers.take 10) (fetchB (tickers.take 10)) = true :=
    hgood _ (by rw [hch]; simp)
  have hg2 : goodB (tickers.drop 10) (fetchB (tickers.drop 10)) = true :=
    hgood _ (by rw [hch]; simp)
  rcases hb1 : fetchB (tickers.take 10) with e1 | df1
  · rw [hb1] at hg1
    cases hg1
  rcases hb2 : fetchB (tickers.drop 10) with e2 | df2
  · rw [hb2] at hg2
    cases hg2
  rw [hb1] at hg1
  rw [hb2] at hg2
  simp only [goodB, Bool.and_eq_true, Bool.not_eq_true', List.all_eq_true] at hg1 hg2
  obtain ⟨hne1, hall1⟩ := hg1
  obtain ⟨hne2, hall2⟩ := hg2
  have htne : tickers ≠ [] := by
    intro h0
    rw [h0] at hlen
    simp at hlen
  have hrb : runBatches fetchB [tickers.take 10, tickers.drop 10] =
      ([df1, df2],
        [.request (tickers.take 10), .sleepSeconds 2,
          .request (tickers.drop 10), .sleepSeconds 2]) := by
    simp [runBatches, hb1, hb2, hne1, hne2]
  have hmain : fetch_master_data fetchB tickers =
      (some (dedupByFrom MCol.key [] (df1 ++ df2)),
        [.request (tickers.take 10), .sleepSeconds 2,
          .request (tickers.drop 10), .sleepSeconds 2]) := by
    unfold fetch_master_data
    rw [if_neg (by simpa [List.isEmpty_iff] using htne), hded, hch, hrb]
    simp [hne1]
  refine ⟨by rw [hmain], by simp [List.length_take, hlen],
    by simp [List.length_drop, hlen],
    dedupByFrom MCol.key [] (df1 ++ df2), by rw [hmain], ?_, ?_⟩
  · exact (dedupByFrom_key_nodup MCol.key (df1 ++ df2) []).1
  · intro s hs
    rw [← List.take_append_drop 10 tickers] at hs
    have hcol : ∃ c ∈ df1 ++ df2, c.key.2 = s := by
      rcases List.mem_append.1 hs with hs1 | hs2
      · obtain ⟨c, hc, hcs⟩ := List.any_eq_true.1 (hall1 s hs1)
        exact ⟨c, List.mem_append_left _ hc, of_decide_eq_true hcs⟩
      · obtain ⟨c, hc, hcs⟩ := List.any_eq_true.1 (hall2 s hs2)
        exact ⟨c, List.mem_append_right _ hc, of_decide_eq_true hcs⟩
    obtain ⟨c, hc, hcs⟩ := hcol
    rcases dedupByFrom_covers MCol.key (df1 ++ df2) [] c hc with h | ⟨c2, hm, hk⟩
    · cases h
    · exact ⟨c2, hm, by rw [show c2.key = c.key from hk, hcs]⟩

/-- C5 witness: the concrete twelve-symbol universe `ts12` under the
always-succeeding provider `fB12` shows both requests, both sleeps, and
the fully covered merged table. -/
theorem twelve_symbols_two_batches_two_sleeps_witness :
    (fetch_master_data fB12 ts12).2 =
        [.request (ts12.take 10), .sleepSeconds 2,
          .request (ts12.drop 10), .sleepSeconds 2] ∧
      (ts12.take 10).length = 10 ∧ (ts12.drop 10).length = 2 ∧
      ∃ m, (fetch_master_data fB12 ts12).1 = some m ∧
        (m.map (·.key)).Nodup ∧ ∀ s ∈ ts12, ∃ c ∈ m, c.key.2 = s :=
  twelve_symbols_two_batches_two_sleeps fB12 ts12 (by decide) (by decide)
    (by decide)

/-- C9: on a non-empty daily series whose bars all satisfy high ≥ low,
the weekly resampler returns one bar per week-ending Friday, each bar
being exactly the first/max/min/last/sum aggregation of its bucket,
indexed on a Friday, and never with high < low. -/
theorem resample_weekly_friday_agg_high_ge_low :
    ∀ (l : List DBar), l ≠ [] → (∀ b ∈ l, b.low ≤ b.high) →
      ∃ ws, resample_to_weekly l = some ws ∧
        ∀ w ∈ ws, w.day % 7 = 4 ∧ w = weeklyBucketAgg l w.day ∧
          ∀ x y, w.high = some x → w.low = some y → y ≤ x := by
  intro l hne hhl
  rcases l with _ | ⟨b0, bs⟩
  · cases hne rfl
  refine ⟨_, rfl, ?_⟩
  intro w hw
  rcases List.mem_map.1 hw with ⟨i, _, rfl⟩
  refine ⟨?_, rfl, ?_⟩
  · show (fridayOf ((bs.map (·.day)).foldl min b0.day) + 7 * i) % 7 = 4
    have h4 := fridayOf_mod ((bs.map (·.day)).foldl min b0.day)
    omega
  · intro x y hx hy
    simp only [weeklyBucketAgg] at hx hy
    rcases hb : (b0 :: bs).filter
        (fun b => fridayOf b.day =
          fridayOf ((bs.map (·.day)).foldl min b0.day) + 7 * i) with _ | ⟨c, cs⟩
    · rw [hb] at hx
      simp [qmax] at hx
    · rw [hb] at hx hy
      have hcl : c ∈ b0 :: bs :=
        List.mem_of_mem_filter (hb ▸ List.mem_cons_self c cs)
      have h1 : y ≤ c.low :=
        qmin_le hy c.low (List.mem_map_of_mem (·.low) (List.mem_cons_self c cs))
      have h2 : c.low ≤ c.high := hhl c hcl
      have h3 : c.high ≤ x :=
        qmax_le hx c.high (List.mem_map_of_mem (·.high) (List.mem_cons_self c cs))
      linarith

/-- C9 witness: the single-bar Monday series is resampled into its
week's Friday bucket with the aggregation and high ≥ low properties. -/
theorem resample_weekly_friday_agg_high_ge_low_witness :
    ∃ ws, resample_to_weekly l1bar = some ws ∧
      ∀ w ∈ ws, w.day % 7 = 4 ∧ w = weeklyBucketAgg l1bar w.day ∧
        ∀ x y, w.high = some x → w.low = some y → y ≤ x :=
  resample_weekly_friday_agg_high_ge_low l1bar (by decide) (by decide)

end TrackItAll
